import Mathlib

/-!
Verification of the meshigo-kore gateway core against its specification.

The Go sources are shallowly embedded: byte slices become lists of
naturals below 256, the frame codec and state-manager methods become
pure Lean functions with explicit state passing, and the outcome of the
durable store's Exec call is passed in as an explicit parameter.
-/

namespace Meshigo

/-- A Go byte slice: a list of naturals, each below 256. -/
def IsByteString (l : List Nat) : Prop := ∀ b ∈ l, b < 256

instance (l : List Nat) : Decidable (IsByteString l) :=
  List.decidableBAll _ l

/-- Embeds binary.BigEndian.Uint32 on four bytes. -/
def beUint32 (b0 b1 b2 b3 : Nat) : Nat :=
  ((b0 * 256 + b1) * 256 + b2) * 256 + b3

/-- Embeds binary.BigEndian.Uint32 applied to the first four bytes of a slice. -/
def beUint32At (data : List Nat) : Nat :=
  beUint32 (data.getD 0 0) (data.getD 1 0) (data.getD 2 0) (data.getD 3 0)

/-- Embeds binary.BigEndian.PutUint32: the four big-endian bytes of n mod 2^32. -/
def putUint32 (n : Nat) : List Nat :=
  [n % 2 ^ 32 / 2 ^ 24, n % 2 ^ 24 / 2 ^ 16, n % 2 ^ 16 / 2 ^ 8, n % 2 ^ 8]

/-- Errors of MeshtasticProtobuf.DecodeFromRadio (unnamed/part_000, lines 98-117):
frame too short (fewer than 4 header bytes, carrying the total byte count) and
frame truncated (carrying the declared and the available payload lengths). -/
inductive FrameError where
  | tooShort (got : Nat)
  | truncated (want : Nat) (got : Nat)
deriving DecidableEq

/-- MeshPacket (unnamed/part_000, lines 40-49); Go zero values as defaults. -/
structure MeshPacket where
  ID : Nat := 0
  From : Nat := 0
  To : Nat := 0
  Channel : Nat := 0
  PortNum : Nat := 0
  Payload : List Nat := []
  HopLimit : Nat := 0
  WantAck : Bool := false
deriving DecidableEq

/-- FromRadio (unnamed/part_000, lines 27-32); only the Packet arm is ever
populated by the code under verification, so the other arms are omitted.
A none Packet models a nil pointer. -/
structure FromRadio where
  Packet : Option MeshPacket := none
deriving DecidableEq

/-- ToRadio (unnamed/part_000, lines 35-37). -/
structure ToRadio where
  Packet : Option MeshPacket := none
deriving DecidableEq

/-- Embeds MeshtasticProtobuf.DecodeFromRadio (unnamed/part_000, lines 98-117).
The Go code compares uint32(len(payload)) with the declared length, hence the
mod 2^32 on the available-byte count. -/
def DecodeFromRadio (data : List Nat) : Except FrameError FromRadio :=
  if data.length < 4 then
    Except.error (FrameError.tooShort data.length)
  else
    let length := beUint32At data
    let payload := data.drop 4
    if payload.length % 2 ^ 32 < length then
      Except.error (FrameError.truncated length payload.length)
    else
      Except.ok { Packet := some { Payload := payload.take length, To := 4294967295 } }

/-- Errors of MeshtasticProtobuf.EncodeToRadio: nil ToRadio or nil Packet. -/
inductive EncodeError where
  | nilToRadio
  | nilPacket
deriving DecidableEq

/-- Embeds MeshtasticProtobuf.EncodeToRadio (unnamed/part_000, lines 120-135):
nil checks, then the 4-byte big-endian length of the payload is prepended. -/
def EncodeToRadio (msg : Option ToRadio) : Except EncodeError (List Nat) :=
  match msg with
  | none => Except.error EncodeError.nilToRadio
  | some m =>
    match m.Packet with
    | none => Except.error EncodeError.nilPacket
    | some p => Except.ok (putUint32 p.Payload.length ++ p.Payload)

/-- True iff the decode result is the frame-too-short error. -/
def isTooShortErr : Except FrameError FromRadio → Bool
  | Except.error (FrameError.tooShort _) => true
  | _ => false

/-- True iff the decode result is the frame-truncated error. -/
def isTruncatedErr : Except FrameError FromRadio → Bool
  | Except.error (FrameError.truncated _ _) => true
  | _ => false

/-- True iff the decode result is a success. -/
def decodeOk : Except FrameError FromRadio → Bool
  | Except.ok _ => true
  | _ => false

/-- Lowercase hexadecimal digit character, as produced by Go's x format verb. -/
def hexDigit (d : Nat) : Char :=
  if d < 10 then Char.ofNat (48 + d) else Char.ofNat (87 + d)

/-- Go's 08x format verb on a uint32 value: exactly eight lowercase
hexadecimal digits, zero padded, most significant first. -/
def hex8 (n : Nat) : String :=
  String.mk [hexDigit (n / 16 ^ 7 % 16), hexDigit (n / 16 ^ 6 % 16),
    hexDigit (n / 16 ^ 5 % 16), hexDigit (n / 16 ^ 4 % 16), hexDigit (n / 16 ^ 3 % 16),
    hexDigit (n / 16 ^ 2 % 16), hexDigit (n / 16 % 16), hexDigit (n % 16)]

/-- The canonical hex node identifier: Sprintf of bang then 08x of the id,
as in state.go line 60 and api.go lines 413-414. -/
def hexID (n : Nat) : String := "!" ++ hex8 n

/-- store.Message (unnamed/part_001 schema and api.go usage): the durable
message record built by the ingest loop. ReceivedAt is a unix timestamp. -/
structure Message where
  ID : Int := 0
  MeshID : String := ""
  FromNode : String := ""
  ToNode : String := ""
  Channel : Nat := 0
  Payload : List Nat := []
  ReceivedAt : Nat := 0
  Synced : Bool := false
deriving DecidableEq

/-- Embeds one iteration of GatewayService.ingestLoop (api.go, lines 391-429)
on a received frame: the loop prepends the four-byte slice 0,0,0,0 (the
comment in the source says it re-adds the length prefix stripped by TCP),
decodes via DecodeFromRadio, skips the frame on decode error or nil packet,
and otherwise builds the store.Message record with Sprintf-formatted node
ids. The db insert and publish are outside this pure step; none models a
skipped frame. -/
def ingestFrame (frameData : List Nat) (receivedAt : Nat) : Option Message :=
  match DecodeFromRadio ([0, 0, 0, 0] ++ frameData) with
  | Except.error _ => none
  | Except.ok fr =>
    match fr.Packet with
    | none => none
    | some p =>
      some { MeshID := toString p.ID
             FromNode := hexID p.From
             ToNode := hexID p.To
             Channel := p.Channel
             Payload := p.Payload
             ReceivedAt := receivedAt }

/-- Embeds one frame read of TCPTransport.readFrames (tcp.go, lines 154-193)
from a byte stream: read the 4-byte header, reject size 0 or above 512 KiB
(tearing the connection down, modelled as none), read exactly that many
payload bytes, and emit the payload as the frame data. -/
def readOneFrame (stream : List Nat) : Option (List Nat) :=
  if stream.length < 4 then none
  else
    let n := beUint32At stream
    if n = 0 ∨ n > 512 * 1024 then none
    else
      let rest := stream.drop 4
      if rest.length < n then none
      else some (rest.take n)

/-- tcp.go line 17: initial reconnect backoff, in seconds. -/
def tcpInitialBackoff : Nat := 2

/-- tcp.go line 18: maximum reconnect backoff, in seconds. -/
def tcpMaxBackoff : Nat := 60

/-- Embeds one turn of the TCPTransport.readLoop backoff state (tcp.go,
lines 104-152): a failed dial doubles the backoff capped at the maximum
(line 127), a successful dial resets it to the initial value (line 132).
The argument dialOK is the outcome of net.DialTimeout. -/
def stepBackoff (b : Nat) (dialOK : Bool) : Nat :=
  if dialOK then tcpInitialBackoff else min (b * 2) tcpMaxBackoff

/-- The backoff value held by readLoop after processing a sequence of dial
outcomes, starting from the initial backoff. The delay waited after a
failed dial is the value of this state when that failure occurs, since the
loop sleeps for the current backoff before doubling it. -/
def backoffState (outcomes : List Bool) : Nat :=
  outcomes.foldl stepBackoff tcpInitialBackoff

/-- Event (tcp.go, lines 220-224): type tag, timestamp (a unix value, the
Go zero time being 0) and payload data. -/
structure Event where
  type : String := ""
  timestamp : Nat := 0
  data : Option Message := none
deriving DecidableEq

/-- tcp.go line 257: per-subscriber channel capacity. -/
def busCap : Nat := 64

/-- EventBus.Publish timestamp stamping (tcp.go, lines 275-277): the
timestamp is set to the current time iff it is the zero time. -/
def stampEvent (now : Nat) (e : Event) : Event :=
  if e.timestamp = 0 then { e with timestamp := now } else e

/-- The non-blocking send of EventBus.Publish (tcp.go, lines 280-286): the
event is appended to the subscriber's buffer iff the buffer is below
capacity, and silently dropped for that subscriber otherwise. -/
def sendNonBlocking (e : Event) (buf : List Event) : List Event :=
  if buf.length < busCap then buf ++ [e] else buf

/-- Embeds EventBus.Publish (tcp.go, lines 274-287): stamp the timestamp if
unset, then attempt a non-blocking send to every current subscriber
independently. Subscribers are modelled by their buffered channels. -/
def Publish (now : Nat) (e : Event) (subs : List (List Event)) : List (List Event) :=
  subs.map (sendNonBlocking (stampEvent now e))

/-- Repeated Publish as seen by one subscriber that never drains its
buffer: each event in turn is stamped and sent non-blockingly. -/
def publishAll (now : Nat) (es : List Event) (buf : List Event) : List Event :=
  es.foldl (fun b e => sendNonBlocking (stampEvent now e) b) buf

/-- One publish followed by a full drain by the subscriber: the state is
the pair of buffer and list of received events. -/
def drainStep (now : Nat) (st : List Event × List Event) (e : Event) :
    List Event × List Event :=
  (([] : List Event), st.2 ++ sendNonBlocking (stampEvent now e) st.1)

/-- Repeated publish for a subscriber that drains its whole buffer after
every publish; returns the final buffer and the received events. -/
def publishDrainAll (now : Nat) (es : List Event) : List Event × List Event :=
  es.foldl (drainStep now) (([] : List Event), ([] : List Event))

/-- state.Node (state.go, lines 14-29). Go zero values as defaults; the
float fields carry exact rational values since the code only ever stores
and copies them, never computes with them. -/
structure Node where
  NodeID : Nat := 0
  NodeIDHex : String := ""
  LongName : String := ""
  ShortName : String := ""
  Hardware : String := ""
  Role : String := ""
  LastSeen : Nat := 0
  BatteryLevel : Nat := 0
  Voltage : Rat := 0
  Lat : Rat := 0
  Lon : Rat := 0
  Alt : Int := 0
deriving DecidableEq

/-- One row of the durable peers table (unnamed/part_001 DDL, lines 211-218)
as touched by Manager.UpsertNode. -/
structure PeerRow where
  displayName : String := ""
  lastSeen : Nat := 0
  transport : String := ""
deriving DecidableEq

/-- The Manager state (state.go, lines 33-37): the in-memory node map keyed
by numeric id, and the durable peers table keyed by hex id. Maps are
association lists. -/
structure ManagerState where
  nodes : List (Nat × Node) := []
  peers : List (String × PeerRow) := []
deriving DecidableEq

/-- Map insertion replacing the entry at an existing key. -/
def assocInsert {α β : Type} [DecidableEq α] (k : α) (v : β) :
    List (α × β) → List (α × β)
  | [] => [(k, v)]
  | (k0, v0) :: rest =>
    if k0 = k then (k, v) :: rest else (k0, v0) :: assocInsert k v rest

/-- Map lookup. -/
def assocGet {α β : Type} [DecidableEq α] (k : α) :
    List (α × β) → Option β
  | [] => none
  | (k0, v0) :: rest => if k0 = k then some v0 else assocGet k rest

/-- The INSERT ON CONFLICT DO UPDATE issued by Manager.UpsertNode
(state.go, lines 68-75): a fresh row carries transport mesh; a conflicting
row keeps its transport and has display name and last seen updated. -/
def upsertPeerRow (hexKey name : String) (seen : Nat) :
    List (String × PeerRow) → List (String × PeerRow)
  | [] => [(hexKey, { displayName := name, lastSeen := seen, transport := "mesh" })]
  | (k, r) :: rest =>
    if k = hexKey then (k, { r with displayName := name, lastSeen := seen }) :: rest
    else (k, r) :: upsertPeerRow hexKey name seen rest

/-- Embeds Manager.UpsertNode (state.go, lines 54-77). now is the clock
reading; dbErr is the outcome of the db.Exec call (none on success),
passed explicitly since the store is an external collaborator. Returns
the new state and the returned error. The id zero check happens before
any mutation; the cache insert happens before the durable write. -/
def UpsertNode (now : Nat) (dbErr : Option String) (n : Node) (s : ManagerState) :
    ManagerState × Option String :=
  if n.NodeID = 0 then
    (s, some "state: node ID must not be zero")
  else
    let n1 := { n with LastSeen := now }
    let n2 := if n1.NodeIDHex = "" then { n1 with NodeIDHex := hexID n1.NodeID } else n1
    let s1 := { s with nodes := assocInsert n2.NodeID n2 s.nodes }
    match dbErr with
    | some e => (s1, some e)
    | none =>
      ({ s1 with peers := upsertPeerRow n2.NodeIDHex n2.LongName n2.LastSeen s1.peers },
       none)

/-- Embeds Manager.GetNode (state.go, lines 80-85). -/
def GetNode (nodeID : Nat) (s : ManagerState) : Option Node :=
  assocGet nodeID s.nodes

/-- Embeds Manager.UpdateTelemetry (state.go, lines 107-115): mutate the
existing entry in place (battery, voltage, last seen) and silently no-op
on an unknown id. The chanUtil argument is accepted and unused, exactly as
in the source. -/
def UpdateTelemetry (now nodeID battery : Nat) (voltage chanUtil : Rat)
    (s : ManagerState) : ManagerState :=
  match assocGet nodeID s.nodes with
  | none => s
  | some n =>
    let n1 := { n with BatteryLevel := battery, Voltage := voltage, LastSeen := now }
    { s with nodes := assocInsert nodeID n1 s.nodes }

/-- Embeds Manager.UpdatePosition (state.go, lines 118-127). -/
def UpdatePosition (now nodeID : Nat) (lat lon : Rat) (alt : Int)
    (s : ManagerState) : ManagerState :=
  match assocGet nodeID s.nodes with
  | none => s
  | some n =>
    let n1 := { n with Lat := lat, Lon := lon, Alt := alt, LastSeen := now }
    { s with nodes := assocInsert nodeID n1 s.nodes }

/-- Value of a hexadecimal digit character, upper or lower case. -/
def hexDigitVal (c : Char) : Option Nat :=
  if 48 ≤ c.toNat ∧ c.toNat ≤ 57 then some (c.toNat - 48)
  else if 97 ≤ c.toNat ∧ c.toNat ≤ 102 then some (c.toNat - 87)
  else if 65 ≤ c.toNat ∧ c.toNat ≤ 70 then some (c.toNat - 55)
  else none

/-- Modelled from the Go standard library: fmt.Sscanf with a bang-x format
into a uint32, as called by Manager.loadNodes (state.go, line 161). The
string must start with a bang and at least one hexadecimal digit; the
maximal digit run is parsed; an out of range value errors without
assigning. In every failure mode the scanned variable keeps its zero
value. -/
def parseBangHex (s : String) : Nat :=
  if s.data.head? = some '!' then
    let run := s.data.tail.takeWhile (fun d => (hexDigitVal d).isSome)
    if run = [] then 0
    else
      let v := run.foldl (fun acc d => acc * 16 + (hexDigitVal d).getD 0) 0
      if v < 2 ^ 32 then v else 0
  else 0

/-- One row of the peers query consumed by Manager.loadNodes. -/
structure PeerDbRow where
  nodeIDHex : String := ""
  displayName : String := ""
  lastSeenTS : Nat := 0
deriving DecidableEq

/-- Embeds Manager.loadNodes (state.go, lines 143-170): each row's hex id
is parsed with Sscanf and a node is inserted under the parsed numeric id,
keeping the row's hex string verbatim. -/
def loadNodes (rows : List PeerDbRow) (s : ManagerState) : ManagerState :=
  rows.foldl
    (fun st row =>
      let n : Node :=
        { NodeID := parseBangHex row.nodeIDHex
          NodeIDHex := row.nodeIDHex
          LongName := row.displayName
          LastSeen := row.lastSeenTS }
      { st with nodes := assocInsert (parseBangHex row.nodeIDHex) n st.nodes })
    s

/-- The operations that can touch the Manager node cache. -/
inductive MgrOp where
  | upsert (now : Nat) (dbErr : Option String) (n : Node)
  | telemetry (now nodeID battery : Nat) (voltage chanUtil : Rat)
  | position (now nodeID : Nat) (lat lon : Rat) (alt : Int)
  | hydrate (rows : List PeerDbRow)

/-- Applies one Manager operation to the state. -/
def applyOp (s : ManagerState) : MgrOp → ManagerState
  | MgrOp.upsert now dbErr n => (UpsertNode now dbErr n s).1
  | MgrOp.telemetry now nodeID battery voltage chanUtil =>
      UpdateTelemetry now nodeID battery voltage chanUtil s
  | MgrOp.position now nodeID lat lon alt => UpdatePosition now nodeID lat lon alt s
  | MgrOp.hydrate rows => loadNodes rows s

/-- An operation as issued by the Go callers: an upserted node has a uint32
id and an absent hex id (left to be derived), and a hydration row was
written by UpsertNode, so its hex id is canonical for a nonzero uint32 id. -/
def GoodOp : MgrOp → Prop
  | MgrOp.upsert _ _ n => n.NodeIDHex = "" ∧ n.NodeID < 2 ^ 32
  | MgrOp.hydrate rows => ∀ r ∈ rows, ∃ k, k ≠ 0 ∧ k < 2 ^ 32 ∧ r.nodeIDHex = hexID k
  | _ => True

/-- The cache invariant of the spec data model: every cached node sits
under its own numeric id, which is a nonzero uint32 value, and its hex id
is the canonical string mirror of the numeric id. -/
def CacheInv (s : ManagerState) : Prop :=
  ∀ p ∈ s.nodes, p.1 = p.2.NodeID ∧ p.2.NodeID ≠ 0 ∧ p.2.NodeID < 2 ^ 32 ∧
    p.2.NodeIDHex = hexID p.2.NodeID

instance (s : ManagerState) : Decidable (CacheInv s) :=
  List.decidableBAll _ s.nodes

theorem beUint32_lt (b0 b1 b2 b3 : Nat) (h0 : b0 < 256) (h1 : b1 < 256)
    (h2 : b2 < 256) (h3 : b3 < 256) : beUint32 b0 b1 b2 b3 < 2 ^ 32 := by
  simp only [beUint32]
  norm_num
  omega

theorem putUint32_beUint32 (b0 b1 b2 b3 : Nat) (h0 : b0 < 256) (h1 : b1 < 256)
    (h2 : b2 < 256) (h3 : b3 < 256) :
    putUint32 (beUint32 b0 b1 b2 b3) = [b0, b1, b2, b3] := by
  simp only [putUint32, beUint32, List.cons.injEq, and_true]
  norm_num
  omega

/-- C2: for every well-formed frame x (a 4-byte big-endian length header
followed by exactly that many payload bytes), encoding the packet obtained
by decoding x reproduces x byte-for-byte. -/
theorem c2_encode_decode_roundtrip (x : List Nat) (hb : IsByteString x)
    (hlen : 4 ≤ x.length) (hdecl : beUint32At x = x.length - 4) :
    ∃ fr : FromRadio, DecodeFromRadio x = Except.ok fr ∧
      EncodeToRadio (some { Packet := fr.Packet }) = Except.ok x := by
  rcases x with _ | ⟨b0, x⟩
  · simp at hlen
  rcases x with _ | ⟨b1, x⟩
  · simp at hlen
  rcases x with _ | ⟨b2, x⟩
  · simp at hlen
  rcases x with _ | ⟨b3, payload⟩
  · simp at hlen
  have h0 : b0 < 256 := hb b0 (by simp)
  have h1 : b1 < 256 := hb b1 (by simp)
  have h2 : b2 < 256 := hb b2 (by simp)
  have h3 : b3 < 256 := hb b3 (by simp)
  have hbe : beUint32At (b0 :: b1 :: b2 :: b3 :: payload) = beUint32 b0 b1 b2 b3 := by
    simp [beUint32At]
  have hL : beUint32 b0 b1 b2 b3 = payload.length := by
    rw [hbe] at hdecl
    simpa using hdecl
  have hsmall : payload.length < 2 ^ 32 := hL ▸ beUint32_lt b0 b1 b2 b3 h0 h1 h2 h3
  refine ⟨{ Packet := some { Payload := payload, To := 4294967295 } }, ?_, ?_⟩
  · have hsmall2 : payload.length < 4294967296 := by omega
    simp only [DecodeFromRadio, hbe, hL]
    rw [if_neg (by simp)]
    simp [Nat.mod_eq_of_lt hsmall2]
  · simp only [EncodeToRadio]
    rw [← hL, putUint32_beUint32 b0 b1 b2 b3 h0 h1 h2 h3]
    rfl

/-- Witness for C2 at the concrete frame 0 0 0 2 7 9. -/
theorem c2_encode_decode_roundtrip_witness :
    IsByteString [0, 0, 0, 2, 7, 9] ∧ 4 ≤ ([0, 0, 0, 2, 7, 9] : List Nat).length ∧
    beUint32At [0, 0, 0, 2, 7, 9] = ([0, 0, 0, 2, 7, 9] : List Nat).length - 4 ∧
    (∃ fr : FromRadio, DecodeFromRadio [0, 0, 0, 2, 7, 9] = Except.ok fr ∧
      EncodeToRadio (some { Packet := fr.Packet }) = Except.ok [0, 0, 0, 2, 7, 9]) :=
  ⟨by decide, by decide, by decide,
   c2_encode_decode_roundtrip [0, 0, 0, 2, 7, 9] (by decide) (by decide) (by decide)⟩

/-- C3 (amended): decode fails with the too-short error iff fewer than 4
header bytes are present; given at least 4 header bytes, it fails with the
truncation error iff the available payload byte count, truncated to uint32
as in the source comparison, is below the declared length, and succeeds
otherwise. For inputs with fewer than 2^32 payload bytes the truncation
is the identity, giving the original claim. -/
theorem c3_decode_error_iff (data : List Nat) :
    (isTooShortErr (DecodeFromRadio data) = true ↔ data.length < 4) ∧
    (4 ≤ data.length →
      ((isTruncatedErr (DecodeFromRadio data) = true ↔
          (data.length - 4) % 2 ^ 32 < beUint32At data) ∧
       (decodeOk (DecodeFromRadio data) = true ↔
          beUint32At data ≤ (data.length - 4) % 2 ^ 32))) := by
  unfold DecodeFromRadio
  by_cases h : data.length < 4
  · simp only [if_pos h]
    constructor
    · simp [isTooShortErr, h]
    · intro hge
      omega
  · simp only [if_neg h]
    have hdrop : (data.drop 4).length = data.length - 4 := by simp
    by_cases htr : (data.drop 4).length % 2 ^ 32 < beUint32At data
    · rw [if_pos (by simpa using htr)]
      constructor
      · simp [isTooShortErr, h]
      · intro _
        constructor
        · simp only [isTruncatedErr]
          rw [← hdrop]
          simpa using htr
        · simp only [decodeOk]
          rw [← hdrop]
          constructor
          · intro hfalse
            exact absurd hfalse (by simp)
          · intro hle
            exact absurd (by simpa using htr) (by omega)
    · rw [if_neg (by simpa using htr)]
      constructor
      · simp [isTooShortErr, h]
      · intro _
        constructor
        · simp only [isTruncatedErr]
          rw [← hdrop]
          constructor
          · intro hfalse
            exact absurd hfalse (by simp)
          · intro hlt
            exact absurd (by simpa using hlt) (by simpa using htr)
        · simp only [decodeOk]
          rw [← hdrop]
          simp only [true_iff]
          have := by simpa using htr
          omega

/-- Witness for C3 at the concrete input 0 0 0 1, which has at least four
header bytes, zero available payload bytes, and declared length one. -/
theorem c3_decode_error_iff_witness :
    4 ≤ ([0, 0, 0, 1] : List Nat).length ∧
    (isTruncatedErr (DecodeFromRadio [0, 0, 0, 1]) = true ↔
      (([0, 0, 0, 1] : List Nat).length - 4) % 2 ^ 32 < beUint32At [0, 0, 0, 1]) :=
  ⟨by decide, ((c3_decode_error_iff [0, 0, 0, 1]).2 (by decide)).1⟩

/-- C3 counterexample: a frame declaring length 1 followed by 2^32 payload
bytes has available count 2^32, at least the declared length, yet decode
reports the truncation error, because the source compares the count
truncated to uint32 (giving 0) with the declared length. -/
theorem c3_counterexample_uint32_wrap :
    isTruncatedErr
      (DecodeFromRadio (0 :: 0 :: 0 :: 1 :: List.replicate (2 ^ 32) 0)) = true ∧
    ¬ ((0 :: 0 :: 0 :: 1 :: List.replicate (2 ^ 32) 0).length - 4 <
        beUint32At (0 :: 0 :: 0 :: 1 :: List.replicate (2 ^ 32) 0)) := by
  have hbe : beUint32At (0 :: 0 :: 0 :: 1 :: List.replicate (2 ^ 32) 0) = 1 := rfl
  have hlen : (0 :: 0 :: 0 :: 1 :: List.replicate (2 ^ 32) 0).length = 2 ^ 32 + 4 := by
    rw [List.length_cons, List.length_cons, List.length_cons, List.length_cons,
      List.length_replicate]
  have hdrop : (0 :: 0 :: 0 :: 1 :: List.replicate (2 ^ 32) 0).drop 4 =
      List.replicate (2 ^ 32) 0 := rfl
  constructor
  · simp only [DecodeFromRadio, hbe, hdrop]
    rw [if_neg (by rw [hlen]; norm_num)]
    rw [if_pos (by simp only [List.length_replicate, Nat.mod_self]; norm_num)]
    simp only [isTruncatedErr]
  · rw [hbe, hlen]
    norm_num

theorem foldl_stepBackoff_false (m : Nat) :
    ∀ b : Nat, b ≤ 60 →
      List.foldl stepBackoff b (List.replicate m false) = min (b * 2 ^ m) 60 := by
  induction m with
  | zero =>
    intro b hb
    simpa using Nat.min_eq_left hb
  | succ m ih =>
    intro b hb
    rw [List.replicate_succ, List.foldl_cons]
    have hstep : stepBackoff b false = min (b * 2) 60 := rfl
    rw [hstep, ih (min (b * 2) 60) (min_le_right _ _)]
    have hpow : 1 ≤ 2 ^ m := Nat.one_le_two_pow
    rcases le_total (b * 2) 60 with h | h
    · rw [min_eq_left h]
      have hmul : b * 2 * 2 ^ m = b * 2 ^ (m + 1) := by ring
      rw [hmul]
    · rw [min_eq_right h]
      have h1 : (60 : Nat) ≤ 60 * 2 ^ m :=
        le_mul_of_one_le_right (by norm_num) hpow
      have h2 : (60 : Nat) ≤ b * 2 ^ (m + 1) := by
        calc (60 : Nat) ≤ b * 2 := h
          _ ≤ b * 2 * 2 ^ m := le_mul_of_one_le_right (Nat.zero_le _) hpow
          _ = b * 2 ^ (m + 1) := by ring
      rw [min_eq_right h1, min_eq_right h2]

/-- C4: the delay waited after the k-th consecutive failed dial is
min of 2 times 2 to the k minus 1 and 60 seconds, never exceeding 60,
both from process start and after any successful connection, and any
successful connection resets the backoff to the initial 2 seconds. The
trace of dial outcomes is arbitrary before the reset point. -/
theorem c4_backoff_schedule (p : List Bool) (k : Nat) (hk : 1 ≤ k) :
    backoffState (List.replicate (k - 1) false) = min (2 * 2 ^ (k - 1)) 60 ∧
    backoffState (p ++ true :: List.replicate (k - 1) false) = min (2 * 2 ^ (k - 1)) 60 ∧
    min (2 * 2 ^ (k - 1)) 60 ≤ 60 ∧
    backoffState (p ++ [true]) = tcpInitialBackoff := by
  have hfrom2 : ∀ b : Nat,
      List.foldl stepBackoff b (true :: List.replicate (k - 1) false) =
        min (2 * 2 ^ (k - 1)) 60 := by
    intro b
    rw [List.foldl_cons]
    have hreset : stepBackoff b true = 2 := rfl
    rw [hreset]
    exact foldl_stepBackoff_false (k - 1) 2 (by norm_num)
  refine ⟨?_, ?_, min_le_right _ _, ?_⟩
  · exact foldl_stepBackoff_false (k - 1) 2 (by norm_num)
  · rw [backoffState, List.foldl_append]
    exact hfrom2 _
  · rw [backoffState, List.foldl_append]
    rfl

/-- Witness for C4 at a trace with one failure, a success, then six
consecutive failures: the sixth delay is capped at 60 seconds. -/
theorem c4_backoff_schedule_witness :
    1 ≤ 6 ∧
    (backoffState (List.replicate (6 - 1) false) = min (2 * 2 ^ (6 - 1)) 60 ∧
     backoffState ([false] ++ true :: List.replicate (6 - 1) false) =
       min (2 * 2 ^ (6 - 1)) 60 ∧
     min (2 * 2 ^ (6 - 1)) 60 ≤ 60 ∧
     backoffState ([false] ++ [true]) = tcpInitialBackoff) :=
  ⟨by norm_num, c4_backoff_schedule [false] 6 (by norm_num)⟩

/-- C1 (code bug evidence): for the inbound frame with header-declared
length 5 and payload hello, the transport read loop emits the five payload
bytes hello, but the ingest iteration then builds a message record whose
Payload is empty rather than hello: the ingest loop re-adds a zero length
prefix before decoding (api.go line 401), so the decode keeps zero payload
bytes, contradicting both the specification and the source comment that
says the stripped length prefix is re-added. -/
theorem c1_ingest_loses_payload :
    readOneFrame [0, 0, 0, 5, 104, 101, 108, 108, 111] =
      some [104, 101, 108, 108, 111] ∧
    (ingestFrame [104, 101, 108, 108, 111] 0).map Message.Payload = some [] ∧
    (ingestFrame [104, 101, 108, 108, 111] 0).map Message.Payload ≠
      some [104, 101, 108, 108, 111] := by
  refine ⟨by decide, by decide, by decide⟩

theorem assocGet_insert_self {α β : Type} [DecidableEq α] (k : α) (v : β)
    (m : List (α × β)) : assocGet k (assocInsert k v m) = some v := by
  induction m with
  | nil => simp [assocInsert, assocGet]
  | cons hd rest ih =>
    obtain ⟨k0, v0⟩ := hd
    by_cases h : k0 = k
    · simp [assocInsert, assocGet, h]
    · simp [assocInsert, assocGet, h, ih]

theorem assocGet_insert_ne {α β : Type} [DecidableEq α] (k j : α) (v : β)
    (hne : k ≠ j) (m : List (α × β)) :
    assocGet j (assocInsert k v m) = assocGet j m := by
  induction m with
  | nil => simp [assocInsert, assocGet, hne]
  | cons hd rest ih =>
    obtain ⟨k0, v0⟩ := hd
    by_cases h : k0 = k
    · subst h
      simp [assocInsert, assocGet, hne]
    · by_cases h2 : k0 = j <;> simp [assocInsert, assocGet, h, h2, hne.symm, ih]

theorem mem_assocInsert {α β : Type} [DecidableEq α] (k : α) (v : β) (p : α × β)
    (m : List (α × β)) : p ∈ assocInsert k v m → p = (k, v) ∨ p ∈ m := by
  induction m with
  | nil =>
    intro hp
    simp only [assocInsert, List.mem_singleton] at hp
    exact Or.inl hp
  | cons hd rest ih =>
    obtain ⟨k0, v0⟩ := hd
    intro hp
    by_cases h : k0 = k
    · simp only [assocInsert, if_pos h, List.mem_cons] at hp
      rcases hp with rfl | hp
      · exact Or.inl rfl
      · exact Or.inr (List.mem_cons_of_mem _ hp)
    · simp only [assocInsert, if_neg h, List.mem_cons] at hp
      rcases hp with rfl | hp
      · exact Or.inr (List.mem_cons_self _ _)
      · rcases ih hp with h2 | h2
        · exact Or.inl h2
        · exact Or.inr (List.mem_cons_of_mem _ h2)

theorem assocGet_mem {α β : Type} [DecidableEq α] (k : α) (v : β)
    (m : List (α × β)) : assocGet k m = some v → (k, v) ∈ m := by
  induction m with
  | nil =>
    intro hget
    simp [assocGet] at hget
  | cons hd rest ih =>
    obtain ⟨k0, v0⟩ := hd
    intro hget
    by_cases h : k0 = k
    · simp only [assocGet, if_pos h, Option.some.injEq] at hget
      subst hget
      subst h
      exact List.mem_cons_self _ _
    · simp only [assocGet, if_neg h] at hget
      exact List.mem_cons_of_mem _ (ih hget)

/-- C5: UpsertNode on a node whose id is zero returns the validation error
and returns the state unchanged: neither the in-memory cache nor the
durable store is touched. -/
theorem c5_upsert_zero_id_rejected (now : Nat) (dbErr : Option String)
    (n : Node) (s : ManagerState) (h : n.NodeID = 0) :
    UpsertNode now dbErr n s = (s, some "state: node ID must not be zero") := by
  simp [UpsertNode, h]

/-- Witness for C5 at the all-defaults node, which has id zero. -/
theorem c5_upsert_zero_id_rejected_witness :
    ({} : Node).NodeID = 0 ∧
    UpsertNode 3 none {} {} = (({} : ManagerState), some "state: node ID must not be zero") :=
  ⟨rfl, c5_upsert_zero_id_rejected 3 none {} {} rfl⟩

/-- C6: with a nonzero id and a failing durable write, UpsertNode returns
the database error to the caller and leaves the durable peers table
untouched, yet the in-memory cache entry for that id has already been
replaced by the new node value, with LastSeen stamped and the hex id
derived when absent: there is no rollback. -/
theorem c6_db_failure_no_rollback (now : Nat) (e : String) (n : Node)
    (s : ManagerState) (h : n.NodeID ≠ 0) :
    (UpsertNode now (some e) n s).2 = some e ∧
    (UpsertNode now (some e) n s).1.peers = s.peers ∧
    GetNode n.NodeID (UpsertNode now (some e) n s).1 =
      some { n with LastSeen := now,
                    NodeIDHex := if n.NodeIDHex = "" then hexID n.NodeID else n.NodeIDHex } := by
  by_cases hhex : n.NodeIDHex = "" <;>
    simp [UpsertNode, GetNode, h, hhex, assocGet_insert_self]

/-- Witness for C6 at a concrete node with id 7 and empty hex id pushed
into an empty manager with a failing durable write. -/
theorem c6_db_failure_no_rollback_witness :
    (UpsertNode 5 (some "disk full") { NodeID := 7 } {}).2 = some "disk full" ∧
    (UpsertNode 5 (some "disk full") { NodeID := 7 } {}).1.peers =
      ({} : ManagerState).peers ∧
    GetNode 7 (UpsertNode 5 (some "disk full") { NodeID := 7 } {}).1 =
      some { NodeID := 7, LastSeen := 5,
             NodeIDHex := if ({ NodeID := 7 } : Node).NodeIDHex = ""
                          then hexID 7 else ({ NodeID := 7 } : Node).NodeIDHex } :=
  c6_db_failure_no_rollback 5 "disk full" { NodeID := 7 } {} (by decide)

/-- C7: UpdateTelemetry on a registered id sets that node's battery level
and voltage and refreshes its last-seen; on an unregistered id the entire
state is returned unchanged, no node being auto-created; and UpsertNode of
a node with id 7 followed by UpdateTelemetry 7 42 yields battery level 42. -/
theorem c7_update_telemetry (now now2 battery nodeID : Nat)
    (voltage chanUtil : Rat) (s : ManagerState) (n : Node) (dbErr : Option String) :
    (GetNode nodeID s = some n →
      GetNode nodeID (UpdateTelemetry now2 nodeID battery voltage chanUtil s) =
        some { n with BatteryLevel := battery, Voltage := voltage, LastSeen := now2 }) ∧
    (GetNode nodeID s = none →
      UpdateTelemetry now2 nodeID battery voltage chanUtil s = s) ∧
    (n.NodeID = 7 →
      (GetNode 7 (UpdateTelemetry now2 7 42 voltage chanUtil
          ((UpsertNode now dbErr n s).1))).map Node.BatteryLevel = some 42) := by
  refine ⟨?_, ?_, ?_⟩
  · intro hget
    simp only [GetNode] at hget
    simp [UpdateTelemetry, GetNode, hget, assocGet_insert_self]
  · intro hget
    simp only [GetNode] at hget
    simp [UpdateTelemetry, hget]
  · intro hid
    have h0 : n.NodeID ≠ 0 := by omega
    have hcache : assocGet 7 ((UpsertNode now dbErr n s).1).nodes =
        some (if n.NodeIDHex = ""
              then { n with LastSeen := now, NodeIDHex := hexID n.NodeID }
              else { n with LastSeen := now }) := by
      rcases dbErr with _ | e <;>
        by_cases hhex : n.NodeIDHex = "" <;>
          simp [UpsertNode, h0, hhex, ← hid, assocGet_insert_self]
    simp [UpdateTelemetry, GetNode, hcache, assocGet_insert_self]

/-- Witness for C7: the registered branch at a one-node manager, the
unregistered branch at the empty manager, and the upsert-then-telemetry
scenario from the empty manager. -/
theorem c7_update_telemetry_witness :
    GetNode 7 (UpdateTelemetry 2 7 42 (37 / 10) 0
        (ManagerState.mk [(7, { NodeID := 7, NodeIDHex := hexID 7 })] [])) =
      some { NodeID := 7, NodeIDHex := hexID 7, BatteryLevel := 42,
             Voltage := 37 / 10, LastSeen := 2 } ∧
    UpdateTelemetry 2 9 42 (37 / 10) 0 {} = ({} : ManagerState) ∧
    (GetNode 7 (UpdateTelemetry 2 7 42 (37 / 10) 0
        ((UpsertNode 1 none { NodeID := 7 } {}).1))).map Node.BatteryLevel = some 42 :=
  ⟨(c7_update_telemetry 1 2 42 7 (37 / 10) 0
      (ManagerState.mk [(7, { NodeID := 7, NodeIDHex := hexID 7 })] [])
      { NodeID := 7, NodeIDHex := hexID 7 } none).1 (by simp [GetNode, assocGet]),
   (c7_update_telemetry 1 2 42 9 (37 / 10) 0 {} { NodeID := 7 } none).2.1 rfl,
   (c7_update_telemetry 1 2 42 7 (37 / 10) 0 {} { NodeID := 7 } none).2.2 rfl⟩

theorem getD_map_lt {α β : Type} (f : α → β) (d : β) (d2 : α) (l : List α) :
    ∀ i : Nat, i < l.length → (l.map f).getD i d = f (l.getD i d2) := by
  induction l with
  | nil =>
    intro i hi
    simp at hi
  | cons a l ih =>
    intro i hi
    cases i with
    | zero => simp
    | succ i =>
      simp only [List.map_cons, List.getD_cons_succ]
      exact ih i (by simpa using Nat.lt_of_succ_lt_succ hi)

theorem publishAll_closed_form (now : Nat) (es : List Event) :
    ∀ buf : List Event, buf.length ≤ busCap →
      publishAll now es buf = buf ++ (es.map (stampEvent now)).take (busCap - buf.length) := by
  induction es with
  | nil =>
    intro buf _
    simp [publishAll]
  | cons e es ih =>
    intro buf hbuf
    rw [publishAll, List.foldl_cons]
    by_cases hfull : buf.length < busCap
    · have hsend : sendNonBlocking (stampEvent now e) buf = buf ++ [stampEvent now e] := by
        simp [sendNonBlocking, hfull]
      rw [hsend]
      have hlen : (buf ++ [stampEvent now e]).length ≤ busCap := by
        simp only [List.length_append, List.length_singleton]
        omega
      have := ih (buf ++ [stampEvent now e]) hlen
      rw [publishAll] at this
      rw [this]
      obtain ⟨m, hm⟩ : ∃ m, busCap - buf.length = m + 1 :=
        ⟨busCap - buf.length - 1, by omega⟩
      have htake : (stampEvent now e :: es.map (stampEvent now)).take (busCap - buf.length) =
          stampEvent now e :: (es.map (stampEvent now)).take m := by
        rw [hm, List.take_succ_cons]
      simp only [List.map_cons, htake, List.length_append, List.length_singleton]
      have harith : busCap - (buf.length + 1) = m := by omega
      rw [harith, List.append_assoc]
      rfl
    · have hsend : sendNonBlocking (stampEvent now e) buf = buf := by
        simp [sendNonBlocking, hfull]
      rw [hsend]
      have hz : busCap - buf.length = 0 := by omega
      have := ih buf hbuf
      rw [publishAll] at this
      rw [this, hz]
      simp

theorem publishDrainAll_received (now : Nat) (es : List Event) :
    ∀ acc : List Event,
      (es.foldl (drainStep now) (([] : List Event), acc)).2 = acc ++ es.map (stampEvent now) := by
  induction es with
  | nil =>
    intro acc
    simp
  | cons e es ih =>
    intro acc
    rw [List.foldl_cons]
    have hstep : drainStep now (([] : List Event), acc) e = ([], acc ++ [stampEvent now e]) := by
      simp [drainStep, sendNonBlocking, busCap]
    rw [hstep, ih (acc ++ [stampEvent now e])]
    simp

/-- C8: Publish stamps the timestamp with the current time iff it is
unset, then independently appends the stamped event to each subscriber's
buffer iff that buffer is below the 64-event capacity, dropping it for
that subscriber alone otherwise; a subscriber that never drains receives
exactly the first 64 published events, with a positive overflow when more
than 64 are published, while a subscriber that drains after every publish
receives every published event. -/
theorem c8_eventbus_fanout (now : Nat) (e : Event) (subs : List (List Event))
    (i : Nat) (es : List Event) :
    (e.timestamp = 0 → stampEvent now e = { e with timestamp := now }) ∧
    (e.timestamp ≠ 0 → stampEvent now e = e) ∧
    (i < subs.length →
      (Publish now e subs).getD i [] =
        (if (subs.getD i []).length < busCap
         then subs.getD i [] ++ [stampEvent now e]
         else subs.getD i [])) ∧
    (Publish now e subs).length = subs.length ∧
    publishAll now es [] = (es.map (stampEvent now)).take busCap ∧
    (busCap < es.length → 0 < es.length - (publishAll now es []).length) ∧
    (publishDrainAll now es).2 = es.map (stampEvent now) := by
  have hclosed : publishAll now es [] = (es.map (stampEvent now)).take busCap := by
    have := publishAll_closed_form now es [] (by simp)
    simpa using this
  refine ⟨?_, ?_, ?_, by simp [Publish], hclosed, ?_, ?_⟩
  · intro h
    simp [stampEvent, h]
  · intro h
    simp [stampEvent, h]
  · intro hi
    rw [Publish, getD_map_lt _ _ [] subs i hi]
    rfl
  · intro hmany
    rw [hclosed]
    simp only [List.length_take, List.length_map]
    omega
  · exact publishDrainAll_received now es []

/-- Witness for C8: an unstamped and a stamped event, one open and one
full subscriber buffer, and a 65-event publish burst with and without
draining. -/
theorem c8_eventbus_fanout_witness :
    stampEvent 9 { type := "message" } = { type := "message", timestamp := 9 } ∧
    stampEvent 9 { type := "message", timestamp := 3 } =
      ({ type := "message", timestamp := 3 } : Event) ∧
    (Publish 9 { type := "message" } [[], List.replicate 64 { type := "status" }]).getD 0 [] =
      (if (([[], List.replicate 64 { type := "status" }] : List (List Event)).getD 0 []).length < busCap
       then ([[], List.replicate 64 { type := "status" }] : List (List Event)).getD 0 [] ++
         [stampEvent 9 { type := "message" }]
       else ([[], List.replicate 64 { type := "status" }] : List (List Event)).getD 0 []) ∧
    (Publish 9 { type := "message" } [[], List.replicate 64 { type := "status" }]).length =
      ([[], List.replicate 64 { type := "status" }] : List (List Event)).length ∧
    publishAll 9 (List.replicate 65 { type := "message", timestamp := 1 }) [] =
      ((List.replicate 65 ({ type := "message", timestamp := 1 } : Event)).map
        (stampEvent 9)).take busCap ∧
    0 < (List.replicate 65 ({ type := "message", timestamp := 1 } : Event)).length -
      (publishAll 9 (List.replicate 65 { type := "message", timestamp := 1 }) []).length ∧
    (publishDrainAll 9 (List.replicate 65 { type := "message", timestamp := 1 })).2 =
      (List.replicate 65 ({ type := "message", timestamp := 1 } : Event)).map
        (stampEvent 9) := by
  have h := c8_eventbus_fanout 9 { type := "message" }
    [[], List.replicate 64 { type := "status" }] 0
    (List.replicate 65 { type := "message", timestamp := 1 })
  exact ⟨h.1 rfl, (c8_eventbus_fanout 9 { type := "message", timestamp := 3 } [] 0 []).2.1
      (by decide),
    h.2.2.1 (by decide), h.2.2.2.1, h.2.2.2.2.1, h.2.2.2.2.2.1 (by decide),
    h.2.2.2.2.2.2⟩

theorem hexDigitVal_hexDigit : ∀ d : Nat, d < 16 → hexDigitVal (hexDigit d) = some d := by
  decide

set_option maxHeartbeats 1000000 in
theorem parseBangHex_hexID (k : Nat) (hk : k < 2 ^ 32) : parseBangHex (hexID k) = k := by
  have e7 : hexDigitVal (hexDigit (k / 16 ^ 7 % 16)) = some (k / 16 ^ 7 % 16) :=
    hexDigitVal_hexDigit _ (Nat.mod_lt _ (by norm_num))
  have e6 : hexDigitVal (hexDigit (k / 16 ^ 6 % 16)) = some (k / 16 ^ 6 % 16) :=
    hexDigitVal_hexDigit _ (Nat.mod_lt _ (by norm_num))
  have e5 : hexDigitVal (hexDigit (k / 16 ^ 5 % 16)) = some (k / 16 ^ 5 % 16) :=
    hexDigitVal_hexDigit _ (Nat.mod_lt _ (by norm_num))
  have e4 : hexDigitVal (hexDigit (k / 16 ^ 4 % 16)) = some (k / 16 ^ 4 % 16) :=
    hexDigitVal_hexDigit _ (Nat.mod_lt _ (by norm_num))
  have e3 : hexDigitVal (hexDigit (k / 16 ^ 3 % 16)) = some (k / 16 ^ 3 % 16) :=
    hexDigitVal_hexDigit _ (Nat.mod_lt _ (by norm_num))
  have e2 : hexDigitVal (hexDigit (k / 16 ^ 2 % 16)) = some (k / 16 ^ 2 % 16) :=
    hexDigitVal_hexDigit _ (Nat.mod_lt _ (by norm_num))
  have e1 : hexDigitVal (hexDigit (k / 16 % 16)) = some (k / 16 % 16) :=
    hexDigitVal_hexDigit _ (Nat.mod_lt _ (by norm_num))
  have e0 : hexDigitVal (hexDigit (k % 16)) = some (k % 16) :=
    hexDigitVal_hexDigit _ (Nat.mod_lt _ (by norm_num))
  have hdata : (hexID k).data =
      '!' :: [hexDigit (k / 16 ^ 7 % 16), hexDigit (k / 16 ^ 6 % 16),
        hexDigit (k / 16 ^ 5 % 16), hexDigit (k / 16 ^ 4 % 16), hexDigit (k / 16 ^ 3 % 16),
        hexDigit (k / 16 ^ 2 % 16), hexDigit (k / 16 % 16), hexDigit (k % 16)] := by
    simp [hexID, hex8]
  rw [parseBangHex, hdata]
  simp only [List.head?_cons, Option.some.injEq, if_pos rfl, List.tail_cons,
    List.takeWhile_cons, e7, e6, e5, e4, e3, e2, e1, e0, Option.isSome_some,
    if_true, List.takeWhile_nil]
  rw [if_neg (by simp)]
  simp only [List.foldl_cons, List.foldl_nil, e7, e6, e5, e4, e3, e2, e1, e0,
    Option.getD_some]
  split
  · norm_num
    omega
  · exfalso
    norm_num at *
    omega

theorem cacheInv_upsert (now : Nat) (dbErr : Option String) (n : Node)
    (s : ManagerState) (hs : CacheInv s) (hhex : n.NodeIDHex = "")
    (hlt : n.NodeID < 2 ^ 32) : CacheInv (UpsertNode now dbErr n s).1 := by
  by_cases h0 : n.NodeID = 0
  · simpa [UpsertNode, h0] using hs
  · intro p hp
    have hnodes : (UpsertNode now dbErr n s).1.nodes =
        assocInsert n.NodeID
          { n with LastSeen := now, NodeIDHex := hexID n.NodeID } s.nodes := by
      rcases dbErr with _ | e <;> simp [UpsertNode, h0, hhex]
    rw [hnodes] at hp
    rcases mem_assocInsert _ _ _ _ hp with rfl | hp
    · exact ⟨rfl, h0, hlt, rfl⟩
    · exact hs p hp

theorem cacheInv_telemetry (now nodeID battery : Nat) (voltage chanUtil : Rat)
    (s : ManagerState) (hs : CacheInv s) :
    CacheInv (UpdateTelemetry now nodeID battery voltage chanUtil s) := by
  rcases hget : assocGet nodeID s.nodes with _ | n
  · simpa [UpdateTelemetry, hget] using hs
  · intro p hp
    simp only [UpdateTelemetry, hget] at hp
    rcases mem_assocInsert _ _ _ _ hp with rfl | hp
    · have hinv := hs (nodeID, n) (assocGet_mem _ _ _ hget)
      exact ⟨hinv.1, hinv.2.1, hinv.2.2.1, hinv.2.2.2⟩
    · exact hs p hp

theorem cacheInv_position (now nodeID : Nat) (lat lon : Rat) (alt : Int)
    (s : ManagerState) (hs : CacheInv s) :
    CacheInv (UpdatePosition now nodeID lat lon alt s) := by
  rcases hget : assocGet nodeID s.nodes with _ | n
  · simpa [UpdatePosition, hget] using hs
  · intro p hp
    simp only [UpdatePosition, hget] at hp
    rcases mem_assocInsert _ _ _ _ hp with rfl | hp
    · have hinv := hs (nodeID, n) (assocGet_mem _ _ _ hget)
      exact ⟨hinv.1, hinv.2.1, hinv.2.2.1, hinv.2.2.2⟩
    · exact hs p hp

theorem cacheInv_loadNodes (rows : List PeerDbRow) :
    ∀ s : ManagerState, CacheInv s →
      (∀ r ∈ rows, ∃ k, k ≠ 0 ∧ k < 2 ^ 32 ∧ r.nodeIDHex = hexID k) →
      CacheInv (loadNodes rows s) := by
  induction rows with
  | nil =>
    intro s hs _
    simpa [loadNodes] using hs
  | cons r rows ih =>
    intro s hs hrows
    obtain ⟨k, hk0, hklt, hkhex⟩ := hrows r (List.mem_cons_self _ _)
    have hparse : parseBangHex r.nodeIDHex = k := by
      rw [hkhex]
      exact parseBangHex_hexID k hklt
    rw [loadNodes, List.foldl_cons]
    refine ih _ ?_ (fun r2 hr2 => hrows r2 (List.mem_cons_of_mem _ hr2))
    intro p hp
    simp only at hp
    rcases mem_assocInsert _ _ _ _ hp with rfl | hp
    · refine ⟨rfl, ?_, ?_, ?_⟩
      · simpa [hparse] using hk0
      · simpa [hparse] using hklt
      · show r.nodeIDHex = hexID (parseBangHex r.nodeIDHex)
        rw [hparse]
        exact hkhex
    · exact hs p hp

/-- C9 (amended): every node in the cache satisfies the id invariant, id
nonzero with the canonical lowercase 8-digit hex mirror, after any
sequence of hydration steps whose rows carry canonical hex ids of nonzero
uint32 ids, UpsertNode calls whose argument leaves the hex id absent, and
UpdateTelemetry and UpdatePosition calls, starting from any state already
satisfying the invariant, such as the empty one. -/
theorem c9_cache_id_invariant (ops : List MgrOp) :
    ∀ s : ManagerState, CacheInv s → (∀ op ∈ ops, GoodOp op) →
      CacheInv (ops.foldl applyOp s) := by
  induction ops with
  | nil =>
    intro s hs _
    simpa using hs
  | cons op ops ih =>
    intro s hs hops
    rw [List.foldl_cons]
    refine ih _ ?_ (fun o ho => hops o (List.mem_cons_of_mem _ ho))
    have hop : GoodOp op := hops op (List.mem_cons_self _ _)
    cases op with
    | upsert now dbErr n => exact cacheInv_upsert now dbErr n s hs hop.1 hop.2
    | telemetry a b c d u => exact cacheInv_telemetry a b c d u s hs
    | position a b c d u => exact cacheInv_position a b c d u s hs
    | hydrate rows => exact cacheInv_loadNodes rows s hs hop

/-- Witness for the amended C9 at a run with one hydration row, one
upsert and one telemetry update, from the empty manager. -/
theorem c9_cache_id_invariant_witness :
    CacheInv
      (([MgrOp.hydrate [{ nodeIDHex := "!0000002a", displayName := "x", lastSeenTS := 5 }],
         MgrOp.upsert 1 none { NodeID := 7 },
         MgrOp.telemetry 2 7 42 (37 / 10) 0]).foldl applyOp {}) :=
  c9_cache_id_invariant _ {} (by decide)
    (by
      intro o ho
      simp only [List.mem_cons, List.not_mem_nil, or_false] at ho
      rcases ho with rfl | rfl | rfl
      · intro r hr
        simp only [List.mem_singleton] at hr
        subst hr
        exact ⟨42, by norm_num, by norm_num, by decide⟩
      · exact ⟨rfl, by norm_num⟩
      · trivial)

/-- C9 counterexample: UpsertNode stores a caller-supplied non-empty hex
id verbatim, so a single upsert of a node with id 7 and hex id bang z z
leaves a cached node whose hex id is not the canonical mirror of 7. -/
theorem c9_counterexample_noncanonical_hex :
    (GetNode 7 (UpsertNode 0 none { NodeID := 7, NodeIDHex := "!zz" } {}).1).map
        Node.NodeIDHex = some "!zz" ∧
    hexID 7 = "!00000007" ∧ "!zz" ≠ hexID 7 := by
  refine ⟨by decide, by decide, by decide⟩

/-- C10: every successful DecodeFromRadio returns a packet whose To field
is the broadcast address, whose ID, From, Channel and PortNum are zero,
and whose Payload is exactly the first header-declared-length bytes after
the header; consequently every message record built by the ingest loop
has MeshID zero, FromNode bang followed by eight zeros and ToNode bang
followed by eight f digits, regardless of the frame contents. -/
theorem c10_stub_decode_constants :
    (∀ (data : List Nat) (fr : FromRadio), DecodeFromRadio data = Except.ok fr →
      ∃ p : MeshPacket, fr.Packet = some p ∧ p.To = 4294967295 ∧ p.ID = 0 ∧
        p.From = 0 ∧ p.Channel = 0 ∧ p.PortNum = 0 ∧
        p.Payload = (data.drop 4).take (beUint32At data)) ∧
    (∀ (frameData : List Nat) (t : Nat) (msg : Message),
      ingestFrame frameData t = some msg →
      msg.MeshID = "0" ∧ msg.FromNode = "!00000000" ∧ msg.ToNode = "!ffffffff") := by
  constructor
  · intro data fr h
    simp only [DecodeFromRadio] at h
    split at h
    · simp at h
    · split at h
      · simp at h
      · rw [Except.ok.injEq] at h
        subst h
        exact ⟨_, rfl, rfl, rfl, rfl, rfl, rfl, rfl⟩
  · intro frameData t msg h
    have hdec : DecodeFromRadio ([0, 0, 0, 0] ++ frameData) =
        Except.ok { Packet := some { Payload := [], To := 4294967295 } } := by
      rw [show ([0, 0, 0, 0] : List Nat) ++ frameData = 0 :: 0 :: 0 :: 0 :: frameData
        from rfl]
      have hbe : beUint32At (0 :: 0 :: 0 :: 0 :: frameData) = 0 := by
        simp [beUint32At, beUint32]
      simp only [DecodeFromRadio, hbe]
      rw [if_neg (by simp)]
      rw [if_neg (by simp)]
      simp
    unfold ingestFrame at h
    rw [hdec] at h
    simp only [Option.some.injEq] at h
    subst h
    exact ⟨rfl, rfl, rfl⟩

/-- Witness for C10 at the concrete frame of four zero bytes for decode
and the empty frame for the ingest record. -/
theorem c10_stub_decode_constants_witness :
    (∃ p : MeshPacket,
      ({ Packet := some { Payload := ([] : List Nat), To := 4294967295 } } : FromRadio).Packet =
        some p ∧ p.To = 4294967295 ∧ p.ID = 0 ∧ p.From = 0 ∧ p.Channel = 0 ∧ p.PortNum = 0 ∧
      p.Payload = (([0, 0, 0, 0] : List Nat).drop 4).take (beUint32At [0, 0, 0, 0])) ∧
    ({ MeshID := "0", FromNode := hexID 0, ToNode := hexID 4294967295,
       Channel := 0, Payload := [], ReceivedAt := 0 } : Message).MeshID = "0" ∧
    ({ MeshID := "0", FromNode := hexID 0, ToNode := hexID 4294967295,
       Channel := 0, Payload := [], ReceivedAt := 0 } : Message).FromNode = "!00000000" ∧
    ({ MeshID := "0", FromNode := hexID 0, ToNode := hexID 4294967295,
       Channel := 0, Payload := [], ReceivedAt := 0 } : Message).ToNode = "!ffffffff" :=
  ⟨c10_stub_decode_constants.1 [0, 0, 0, 0]
      { Packet := some { Payload := [], To := 4294967295 } } rfl,
   c10_stub_decode_constants.2 [] 0
      { MeshID := "0", FromNode := hexID 0, ToNode := hexID 4294967295,
        Channel := 0, Payload := [], ReceivedAt := 0 } rfl⟩

end Meshigo
